import Mathlib

/-!
Verification of the Number Normalization & Batch Validation Engine
(`src/project/src/pages/NumberFiltering.tsx`).

The engine is a React component; its state lives in `useState` hooks.  We
embed the data model (`PhoneNumber` records, `FilterSettings`) and the
operations the claims are about (`validatePhoneNumber`,
`processPhoneNumbers`, the batch loop of `startProcessing`,
`exportResults`, the persistence step) as pure Lean functions.  External
collaborators (the `libphonenumber-js` parser, the WhatsApp verification
call, the Supabase cache) are modelled as explicit oracle parameters; the
scheduler consumes the verification oracle through an attempt counter so
that transient failures and partial responses can be expressed.

JavaScript truthiness matters in several places of the source
(`n.normalizedNumber || n.number`, `result.status === 'valid' &&
result.wa_id`, `n.hasWhatsApp === true`), so runtime values that the code
stores in `hasWhatsApp` are modelled by the `JSVal` type below, and the
`||` fallback on strings by `jsOrStr`.

`startProcessing` is modelled in two layers.  `startProcessingRuntime`
and `startProcessingRun` give the control flow as it actually executes:
because the `const validNumbers` of line 392 shadows the line-275
binding across the whole `try` block, the read at line 290 throws a
caught `ReferenceError`, so after the empty-snapshot guard every run
ends before the batch loop and leaves the record store untouched.
`processBatch` and `runBatches` model the batch loop as written (lines
297–389) — code that is unreachable at runtime — and serve to bound
what even that code could do, in the preservation argument for the
invalid-record claim.
-/

/-- Runtime JavaScript values that the source stores in the
`hasWhatsApp` field: `null` at seed time, and — because line 366 computes
`result.status === 'valid' && result.wa_id` — either `false`, `undefined`
or the `wa_id` *string* after reconciliation.  (The boolean `true` is
never assigned by the engine.) -/
inductive JSVal where
  | nullv : JSVal
  | undef : JSVal
  | boolv : Bool → JSVal
  | strv : String → JSVal
deriving DecidableEq, Repr

/-- JavaScript truthiness of a `JSVal`: `null`, `undefined`, `false` and
`""` are falsy; other booleans and strings are truthy. -/
def JSVal.truthy : JSVal → Bool
  | JSVal.nullv => false
  | JSVal.undef => false
  | JSVal.boolv b => b
  | JSVal.strv s => !(s == "")

/-- JavaScript strict equality `=== true` on a `JSVal`. -/
def JSVal.eqTrue : JSVal → Bool
  | JSVal.boolv b => b
  | _ => false

/-- JavaScript `o || d` for an optional string `o` (used by the source as
`n.normalizedNumber || n.number`): falls back to `d` when `o` is absent
or the empty string. -/
def jsOrStr (o : Option String) (d : String) : String :=
  match o with
  | some s => if s = "" then d else s
  | none => d

/-- The `number.startsWith('+')` test of source line 85: whether the
first character is `'+'`. -/
def startsWithPlus (s : String) : Bool := s.data.head? == some '+'

/-- JavaScript `s.replace(pat, '')`: removes the first occurrence of
`pat` only (used by the source as `number.replace('+', '')`). -/
def replaceFirst (s pat : String) : String :=
  match s.splitOn pat with
  | [] => s
  | [x] => x
  | x :: rest => x ++ String.intercalate pat rest

/-- Per-record lifecycle states of the `PhoneNumber.status` field. -/
inductive Status where
  | pending : Status
  | checking : Status
  | done : Status
  | error : Status
deriving DecidableEq, Repr

/-- The `PhoneNumber` record of the source (one per input line). -/
structure PhoneRec where
  number : String
  hasWhatsApp : JSVal
  status : Status
  error : Option String
  normalizedNumber : Option String
  country : Option String
  isValid : Bool
deriving DecidableEq, Repr

/-- The `status` field of a `ValidationResult` returned by the
verification service (`'valid' | 'invalid'`). -/
inductive RStatus where
  | valid : RStatus
  | invalid : RStatus
deriving DecidableEq, Repr

/-- A `ValidationResult` entry of the verification response. -/
structure VRes where
  input : String
  status : RStatus
  wa_id : Option String
deriving DecidableEq, Repr

/-- The `FilterSettings` configuration record.  The two delay fields are
wall-clock durations; they are carried for fidelity but time is not
modelled. -/
structure FilterSettings where
  batchSize : Nat
  delayBetweenBatches : Nat
  maxRetries : Nat
  retryDelay : Nat
  useMetaApi : Bool
  defaultCountryCode : String
deriving DecidableEq, Repr

/-- Result of one call into `libphonenumber-js`'s `parsePhoneNumber`:
the parsed object carries the E.164 form (`format('E.164')`), the
resolved `country` (which the library documents as possibly `undefined`,
e.g. for non-geographical numbering plans), and the result of
`isValid()`. -/
structure ParsedPhone where
  e164 : String
  country : Option String
  isValidNum : Bool
deriving DecidableEq, Repr

/-- Outcome of a `parsePhoneNumber` call: the library may throw a
`ParseError` (with an optional `message`), may produce a nullish value
(the source guards `if (!phoneNumber)`), or returns a parsed object. -/
inductive ParseOutcome where
  | threw : Option String → ParseOutcome
  | nullish : ParseOutcome
  | parsed : ParsedPhone → ParseOutcome
deriving DecidableEq, Repr

/-- Abstract model of the `libphonenumber-js` library: `parseIntl s`
stands for `parsePhoneNumber(s)` (no region argument — the branch taken
for inputs starting with `+`), `parseWithRegion s cc` for
`parsePhoneNumber(s, cc)`. -/
structure LibModel where
  parseIntl : String → ParseOutcome
  parseWithRegion : String → String → ParseOutcome

/-- Return shape of `validatePhoneNumber` in the source. -/
structure ValidationOut where
  isValid : Bool
  normalized : Option String
  country : Option String
  error : Option String
deriving DecidableEq, Repr

/-- The `validatePhoneNumber` function (source lines 75–118): inputs
starting with `+` are parsed without a region, others with the supplied
`countryCode`; a thrown `ParseError` is caught and converted to
`isValid: false` with the error's message (or `'Validation failed'`);
a nullish parse yields `'Invalid phone number format'`; a structurally
parsed but invalid number yields `'Phone number is not valid'`; on
success the E.164 form and `phoneNumber.country || countryCode` are
returned. -/
def validatePhoneNumber (lib : LibModel) (number : String) (countryCode : String) :
    ValidationOut :=
  match (if startsWithPlus number then lib.parseIntl number
         else lib.parseWithRegion number countryCode) with
  | ParseOutcome.threw m =>
      { isValid := false, normalized := none, country := none,
        error := some (m.getD "Validation failed") }
  | ParseOutcome.nullish =>
      { isValid := false, normalized := none, country := none,
        error := some "Invalid phone number format" }
  | ParseOutcome.parsed p =>
      if !p.isValidNum then
        { isValid := false, normalized := none, country := none,
          error := some "Phone number is not valid" }
      else
        { isValid := true, normalized := some p.e164,
          country := some (jsOrStr p.country countryCode), error := none }

/-- The `processPhoneNumbers` seeding function (source lines 163–180):
every raw input line becomes exactly one record; records failing
validation are seeded with `status: 'error'`, the rest `'pending'`;
`hasWhatsApp` starts as `null`. -/
def seedRec (lib : LibModel) (cc : String) (number : String) : PhoneRec :=
  let v := validatePhoneNumber lib number cc
  { number := number, hasWhatsApp := JSVal.nullv,
    status := if v.isValid then Status.pending else Status.error,
    error := v.error, normalizedNumber := v.normalized,
    country := v.country, isValid := v.isValid }

def processPhoneNumbers (lib : LibModel) (inputs : List String) (cc : String) :
    List PhoneRec :=
  inputs.map (seedRec lib cc)

/-- The eligibility snapshot taken at the top of `startProcessing`
(source line 275): `numbers.filter(n => n.isValid && n.status !== 'error')`.
Note the filter keeps `pending`, `checking` and `done` records. -/
def eligibleOf (l : List PhoneRec) : List PhoneRec :=
  l.filter (fun n => n.isValid && !(n.status == Status.error))

/-- The export string built by `exportResults` (source lines 415–419):
records whose `hasWhatsApp` is truthy, mapped to
`normalizedNumber || number`, joined by newlines. -/
def exportString (l : List PhoneRec) : String :=
  String.intercalate "\n"
    ((l.filter (fun n => n.hasWhatsApp.truthy)).map
      (fun n => jsOrStr n.normalizedNumber n.number))

/-- State-passing form of `exportResults`: the source reads the `numbers`
state and calls no state setter, so the record store is returned
unchanged alongside the produced string. -/
def exportResultsSt (l : List PhoneRec) : String × List PhoneRec :=
  (exportString l, l)

/-- Spec-side reading of `exportReachable()` (spec §4.5): the ordered
list of canonical numbers of the records with `reachable == true`,
newline-joined.  Stated from the spec's words for comparison with
`exportString`; a record counts as reachable-true exactly when the
engine's stored flag is truthy. -/
def exportReachableSpec (l : List PhoneRec) : String :=
  String.intercalate "\n"
    (l.filterMap (fun n =>
      if n.hasWhatsApp.truthy then n.normalizedNumber else none))

/-- Fuel-driven worker for the batch partition of `startProcessing`'s
`for` loop (source line 297, `for (let i = 0; i < validNumbers.length;
i += batchSize)` with `validNumbers.slice(i, i + batchSize)`): peels off
consecutive slices of size `b`, the last one possibly smaller.  The fuel
argument (instantiated with the list length by `chunks`) only makes the
recursion structural; it never runs out for `b ≥ 1`. -/
def chunksGo (b : Nat) : Nat → List PhoneRec → List (List PhoneRec)
  | _, [] => []
  | 0, a :: t => [a :: t]
  | fuel + 1, a :: t =>
      if b = 0 then [a :: t]
      else ((a :: t).take b) :: chunksGo b fuel ((a :: t).drop b)

/-- Batch partition entry point: the fuel `l.length` always suffices
for `batchSize ≥ 1`, so `chunks b l` is the list of consecutive slices
of size `b` (last one possibly smaller); the `b = 0` case is junk filler
(the source loop would not terminate there, and the settings form
enforces `batchSize ≥ 1`). -/
def chunks (b : Nat) (l : List PhoneRec) : List (List PhoneRec) :=
  chunksGo b l.length l

/-- Update the first element of the list satisfying `p` with `f`
(JavaScript `findIndex` followed by an indexed overwrite, the pattern
the source uses in all three `setNumbers` updaters of the batch loop);
when nothing matches (`findIndex` returns `-1`) the list is unchanged. -/
def updateFirst (p : PhoneRec → Bool) (f : PhoneRec → PhoneRec) :
    List PhoneRec → List PhoneRec
  | [] => []
  | a :: t => if p a then f a :: t else a :: updateFirst p f t

/-- The `status: 'checking'` transition applied to every batch member
(source lines 305–314): for each batch item, the first store record with
the same raw `number` is set to `checking`. -/
def markChecking (l : List PhoneRec) (batch : List PhoneRec) : List PhoneRec :=
  batch.foldl
    (fun acc it =>
      updateFirst (fun n => n.number == it.number)
        (fun n => { n with status := Status.checking }) acc)
    l

/-- The retry-exhaustion marking (source lines 330–343): for each batch
item, the first store record with the same raw `number` is set to
`error` with the failure message. -/
def markError (l : List PhoneRec) (batch : List PhoneRec) (msg : String) :
    List PhoneRec :=
  batch.foldl
    (fun acc it =>
      updateFirst (fun n => n.number == it.number)
        (fun n => { n with status := Status.error, error := some msg }) acc)
    l

/-- The exhaustion message of source line 338:
`Failed after ${maxRetries} attempts: ${error.message || 'Unknown error'}`. -/
def errMsg (mR : Nat) (e : String) : String :=
  "Failed after " ++ toString mR ++ " attempts: " ++
    (if e = "" then "Unknown error" else e)

/-- The reconciliation match predicate of source line 361:
`n.normalizedNumber === result.input || n.number === result.input`. -/
def predB (n : PhoneRec) (r : VRes) : Bool :=
  (n.normalizedNumber == some r.input) || (n.number == r.input)

/-- The value of `result.status === 'valid' && result.wa_id` (source
line 366): the `wa_id` string when the status is `valid` and an id is
present, `undefined` when the status is `valid` without id, and `false`
otherwise. -/
def resultFlag (r : VRes) : JSVal :=
  if r.status == RStatus.valid then
    (match r.wa_id with
     | some s => JSVal.strv s
     | none => JSVal.undef)
  else JSVal.boolv false

/-- Reconciliation of one verification result entry (source lines
360–377): the first store record matching the entry (by canonical or raw
number) receives the flag, `status: 'done'` and the error text; the
running `validCount` is incremented when a match was found and the flag
is truthy.  Entries matching no record are dropped silently. -/
def applyResult (l : List PhoneRec) (vc : Nat) (r : VRes) :
    List PhoneRec × Nat :=
  let flag := resultFlag r
  let matched := l.any (fun n => predB n r)
  (updateFirst (fun n => predB n r)
      (fun n =>
        { n with hasWhatsApp := flag, status := Status.done,
                 error := if flag.truthy then none
                          else some "Not on WhatsApp" }) l,
   if matched && flag.truthy then vc + 1 else vc)

/-- Reconciliation of a whole response (the `batchResults.forEach` of
source line 360). -/
def reconcile (l : List PhoneRec) (vc : Nat) (rs : List VRes) :
    List PhoneRec × Nat :=
  rs.foldl (fun acc r => applyResult acc.1 acc.2 r) (l, vc)

/-- Outcome of the inner retry loop for one batch. -/
inductive AttemptRes where
  | succeeded : List VRes → Nat → Nat → AttemptRes
  | exhausted : String → Nat → AttemptRes
  | skipped : AttemptRes
deriving DecidableEq, Repr

/-- The retry loop of source lines 320–355:
`while (!batchSuccess && attemptCount < maxRetries)`.  `k` is the global
index of the next verification call (feeding the oracle), `fails` the
failed attempts so far, and the last argument the remaining loop budget
`maxRetries - attemptCount`.  A successful call returns the response and
the new call index; when a failure makes `attemptCount` reach
`maxRetries` the loop marks the batch (`exhausted`); with a zero budget
the loop body never runs (`skipped`, reachable only for
`maxRetries = 0`). -/
def attemptLoop (oracle : Nat → List String → Except String (List VRes))
    (req : List String) (k : Nat) (fails : Nat) : Nat → AttemptRes
  | 0 => AttemptRes.skipped
  | Nat.succ fuel =>
    match oracle k req with
    | Except.ok rs => AttemptRes.succeeded rs (k + 1) fails
    | Except.error e =>
      if fuel = 0 then AttemptRes.exhausted e (k + 1)
      else attemptLoop oracle req (k + 1) (fails + 1) fuel

/-- Aggregate run state: the record store plus the counters of
`startProcessing` (`processedCount`, `validCount`, `retryCount`) and the
number of verification calls issued so far. -/
structure RunSt where
  numbers : List PhoneRec
  processedCount : Nat
  validCount : Nat
  retryCount : Nat
  callIdx : Nat
deriving DecidableEq, Repr

/-- One iteration of the batch loop (source lines 302–388): mark the
batch `checking`, build the request as `normalizedNumber || number`, run
the retry loop; on success reconcile the response and count the whole
batch as processed; on exhaustion mark the batch `error` and count it as
processed; when the retry loop never ran (`maxRetries = 0`) the batch is
left `checking` and not counted. -/
def processBatch (s : FilterSettings)
    (oracle : Nat → List String → Except String (List VRes))
    (st : RunSt) (batch : List PhoneRec) : RunSt :=
  let ns1 := markChecking st.numbers batch
  let req := batch.map (fun n => jsOrStr n.normalizedNumber n.number)
  match attemptLoop oracle req st.callIdx 0 s.maxRetries with
  | AttemptRes.succeeded rs k fails =>
      let p := reconcile ns1 st.validCount rs
      { numbers := p.1, validCount := p.2,
        processedCount := st.processedCount + batch.length,
        retryCount := st.retryCount + fails, callIdx := k }
  | AttemptRes.exhausted e k =>
      { numbers := markError ns1 batch (errMsg s.maxRetries e),
        validCount := st.validCount,
        processedCount := st.processedCount + batch.length,
        retryCount := st.retryCount + s.maxRetries, callIdx := k }
  | AttemptRes.skipped => { st with numbers := ns1 }

/-- The batch loop as written (source lines 297–389); at runtime it is
unreachable — line 290 throws before it (see `startProcessingRuntime`) —
and this definition serves to bound what even the written loop could do.
`aborted i` is the value of the guard
`abortControllerRef.current?.signal.aborted` read before batch `i`; note
that `handleCancel` (source lines 436–442) calls `abort()` and then
immediately sets the ref to `null`, after which the optional chaining
yields `undefined` — falsy — at every later check, so during a cancelled
run this guard reads `false`. -/
def runBatches (s : FilterSettings)
    (oracle : Nat → List String → Except String (List VRes))
    (aborted : Nat → Bool) : RunSt → Nat → List (List PhoneRec) → RunSt
  | st, _, [] => st
  | st, i, b :: bs =>
    if aborted i then st
    else runBatches s oracle aborted (processBatch s oracle st b) (i + 1) bs

/-- Initial run state: counters at zero, the store as seeded. -/
def initSt (l : List PhoneRec) : RunSt :=
  { numbers := l, processedCount := 0, validCount := 0,
    retryCount := 0, callIdx := 0 }

/-- A row of the `whatsapp_valid_numbers` upsert (source lines 394–400);
the `validated_at` timestamp is external wall-clock data and omitted. -/
structure UpsertRow where
  phone_number : String
  wa_id : String
deriving DecidableEq, Repr

/-- The persistence step of source lines 392–402, evaluated on the list
it actually reads: `numbers.filter(n => n.hasWhatsApp === true)` over the
`numbers` binding captured by the closure (the pre-run store, since the
in-run updates go through `setNumbers` and never rebind the local
variable).  The filter uses strict `=== true`, which no value written by
the engine satisfies (reconciliation stores `false`/`undefined`/a
string, never boolean `true`). -/
def persistedUpserts (stale : List PhoneRec) : List UpsertRow :=
  (stale.filter (fun n => n.hasWhatsApp.eqTrue)).map
    (fun n =>
      { phone_number := jsOrStr n.normalizedNumber n.number,
        wa_id := replaceFirst (jsOrStr n.normalizedNumber n.number) "+" })

/-- Runtime outcome of calling `startProcessing` as the source is
written. -/
inductive RuntimeOutcome where
  | noValidNumbers : RuntimeOutcome
  | caughtReferenceError : RuntimeOutcome
deriving DecidableEq, Repr

/-- The `startProcessing` function as it actually executes.  Line 392
declares `const validNumbers` directly inside the `try` block opened at
line 289; by JavaScript block scoping this single binding covers the
whole `try` block, so the reads of `validNumbers` at lines 290, 297 and
302 refer to it while it is still in its temporal dead zone.  The first
such read — `const totalNumbers = validNumbers.length` at line 290 —
therefore throws a `ReferenceError`, which the `catch` at line 406
converts into an error banner: after the no-valid-numbers guard, every
invocation ends having issued no verification call and changed no
record. -/
def startProcessingRuntime (numbers0 : List PhoneRec) : RuntimeOutcome :=
  if (eligibleOf numbers0).length = 0 then RuntimeOutcome.noValidNumbers
  else RuntimeOutcome.caughtReferenceError

/-- The `startProcessing` call as it actually executes, paired with the
record store it leaves behind.  Control flow as in
`startProcessingRuntime` (empty-snapshot rejection, otherwise the caught
line-290 `ReferenceError`); the store is returned unchanged in both
cases: the statements executed before the `try` block (lines 282–287)
touch only flags and counters, and every `setNumbers` call sits inside
the unreachable loop body. -/
def startProcessingRun (numbers0 : List PhoneRec) :
    RuntimeOutcome × List PhoneRec :=
  if (eligibleOf numbers0).length = 0 then
    (RuntimeOutcome.noValidNumbers, numbers0)
  else (RuntimeOutcome.caughtReferenceError, numbers0)

/-- Decision taken at the top of `startProcessing` (source lines
273–288): the only guard is the emptiness of the eligible snapshot; the
`isProcessing` flag is not consulted (single-run discipline is left to
the UI, which swaps the Start button for a Cancel button while
`isProcessing` holds). -/
inductive StartDecision where
  | rejectNoValid : StartDecision
  | proceed : StartDecision
deriving DecidableEq, Repr

/-- Entry guard of `startProcessing` as a function of the `isProcessing`
flag and the store.  The flag parameter is deliberately unused: the
source performs no active-run check. -/
def startGuard (_isProcessing : Bool) (numbers0 : List PhoneRec) :
    StartDecision :=
  if (eligibleOf numbers0).length = 0 then StartDecision.rejectNoValid
  else StartDecision.proceed

/-! ### Helper lemmas about the scheduler's list operations -/

theorem chunksGo_flatten (b : Nat) :
    ∀ (fuel : Nat) (l : List PhoneRec), l.length ≤ fuel →
      (chunksGo b fuel l).flatten = l
  | _, [], _ => by simp [chunksGo]
  | 0, a :: t, h => by simp at h
  | fuel + 1, a :: t, h => by
      by_cases hb : b = 0
      · simp [chunksGo, hb]
      · have hdrop : ((a :: t).drop b).length ≤ fuel := by
          simp only [List.length_drop, List.length_cons]
          simp only [List.length_cons] at h
          omega
        simp only [chunksGo, hb, if_false, List.flatten_cons,
          chunksGo_flatten b fuel ((a :: t).drop b) hdrop,
          List.take_append_drop]

theorem chunks_flatten (b : Nat) (l : List PhoneRec) :
    (chunks b l).flatten = l :=
  chunksGo_flatten b l.length l (Nat.le_refl _)
theorem updateFirst_getElem?_of_not (p : PhoneRec → Bool) (f : PhoneRec → PhoneRec) :
    ∀ (l : List PhoneRec) (j : Nat) (n : PhoneRec),
      l[j]? = some n → p n = false → (updateFirst p f l)[j]? = some n
  | [], j, n, h, _ => by simp at h
  | a :: t, 0, n, h, hp => by
      simp at h
      subst h
      simp [updateFirst, hp]
  | a :: t, j + 1, n, h, hp => by
      simp at h
      by_cases ha : p a
      · simpa [updateFirst, ha] using h
      · simpa [updateFirst, ha] using
          updateFirst_getElem?_of_not p f t j n h hp

theorem foldl_updateFirst_preserve
    (p : PhoneRec → PhoneRec → Bool) (f : PhoneRec → PhoneRec → PhoneRec) :
    ∀ (items : List PhoneRec) (l : List PhoneRec) (j : Nat) (n : PhoneRec),
      l[j]? = some n → (∀ it ∈ items, p it n = false) →
      (items.foldl (fun acc it => updateFirst (p it) (f it) acc) l)[j]? = some n
  | [], _, _, _, h, _ => h
  | it :: its, l, j, n, h, hp => by
      simp only [List.foldl_cons]
      exact foldl_updateFirst_preserve p f its _ j n
        (updateFirst_getElem?_of_not (p it) (f it) l j n h (hp it (by simp)))
        (fun x hx => hp x (by simp [hx]))

theorem markChecking_getElem?_of_not (l batch : List PhoneRec) (j : Nat)
    (n : PhoneRec) (h : l[j]? = some n)
    (hp : ∀ it ∈ batch, (n.number == it.number) = false) :
    (markChecking l batch)[j]? = some n :=
  foldl_updateFirst_preserve (fun it n => n.number == it.number)
    (fun _ n => { n with status := Status.checking }) batch l j n h hp

theorem markError_getElem?_of_not (l batch : List PhoneRec) (msg : String)
    (j : Nat) (n : PhoneRec) (h : l[j]? = some n)
    (hp : ∀ it ∈ batch, (n.number == it.number) = false) :
    (markError l batch msg)[j]? = some n :=
  foldl_updateFirst_preserve (fun it n => n.number == it.number)
    (fun _ n => { n with status := Status.error, error := some msg }) batch l j n h hp

theorem reconcile_getElem?_of_not :
    ∀ (rs : List VRes) (l : List PhoneRec) (vc : Nat) (j : Nat) (n : PhoneRec),
      l[j]? = some n → (∀ r ∈ rs, predB n r = false) →
      (reconcile l vc rs).1[j]? = some n
  | [], _, _, _, _, h, _ => h
  | r :: rs, l, vc, j, n, h, hr => by
      simp only [reconcile, List.foldl_cons]
      exact reconcile_getElem?_of_not rs (applyResult l vc r).1 (applyResult l vc r).2
        j n
        (updateFirst_getElem?_of_not (fun m => predB m r) _ l j n h (hr r (by simp)))
        (fun x hx => hr x (by simp [hx]))

/-- Shared concrete fixtures: two valid pending records with distinct
raw numbers, as seeded from E.164 input lines. -/
def recV1 : PhoneRec :=
  { number := "+242060000001", hasWhatsApp := JSVal.nullv,
    status := Status.pending, error := none,
    normalizedNumber := some "+242060000001", country := some "CG",
    isValid := true }

def recV2 : PhoneRec :=
  { number := "+242060000002", hasWhatsApp := JSVal.nullv,
    status := Status.pending, error := none,
    normalizedNumber := some "+242060000002", country := some "CG",
    isValid := true }

/-- Base settings mirroring the source defaults (with millisecond delays
irrelevant to the model). -/
def baseSettings : FilterSettings :=
  { batchSize := 20, delayBetweenBatches := 1000, maxRetries := 3,
    retryDelay := 2000, useMetaApi := true, defaultCountryCode := "CG" }

/-- C1, code defect, evaluated.  A store of two valid `Pending` records
passes the guard and begins a run; the verification service is never
consulted (`startProcessingRun` does not even take an oracle): the run
ends at the caught `ReferenceError` of line 290, with zero verification
attempts made, no record marked `Error`, and the store unchanged —
where the claim (and spec, sections 4.3 and 8) require `maxRetries + 1`
attempts and batch-wide `Error` marking with an attempt-count message.
(The retry loop as written at lines 320–355, were it reachable, would
moreover make exactly `maxRetries` attempts, not `maxRetries + 1`.) -/
theorem retry_exhaustion_defect_eval :
    startProcessingRun [recV1, recV2]
      = (RuntimeOutcome.caughtReferenceError, [recV1, recV2])
    ∧ recV1.status = Status.pending
    ∧ recV2.status = Status.pending
    ∧ ((startProcessingRun [recV1, recV2]).2.all
        (fun n => !(n.status == Status.error))) = true := by
  refine ⟨by decide, by decide, by decide, by decide⟩

/-- C2, code defect, evaluated.  No verification response is ever
processed: the run crashes at line 290 before the first call, so the
claimed absence policy is never exercised — after a run over two valid
records every reachability flag is still `null` and every status still
`Pending` (nothing is classified negative, nothing counted).  The
response handling as written (lines 357–386), were it reachable, would
moreover leave a record absent from the response set in `Checking` and
add the full batch to `processedCount` instead of retrying it. -/
theorem absent_entry_defect_eval :
    startProcessingRun [recV2, recV1]
      = (RuntimeOutcome.caughtReferenceError, [recV2, recV1])
    ∧ ((startProcessingRun [recV2, recV1]).2.all
        (fun n => (n.hasWhatsApp == JSVal.nullv)
          && (n.status == Status.pending))) = true := by
  refine ⟨by decide, by decide⟩

theorem attemptLoop_succeeded_src
    (oracle : Nat → List String → Except String (List VRes))
    (req : List String) :
    ∀ (fuel k fails : Nat) (rs : List VRes) (k2 f2 : Nat),
      attemptLoop oracle req k fails fuel = AttemptRes.succeeded rs k2 f2 →
      ∃ k0, oracle k0 req = Except.ok rs
  | 0, k, fails, rs, k2, f2, h => by simp [attemptLoop] at h
  | fuel + 1, k, fails, rs, k2, f2, h => by
      rw [show fuel + 1 = Nat.succ fuel from rfl, attemptLoop] at h
      cases ho : oracle k req with
      | ok rs0 =>
          rw [ho] at h
          simp only [AttemptRes.succeeded.injEq] at h
          exact ⟨k, by rw [ho, h.1]⟩
      | error e =>
          rw [ho] at h
          by_cases hf : fuel = 0
          · simp [hf] at h
          · simp only [if_neg hf] at h
            exact attemptLoop_succeeded_src oracle req fuel (k + 1) (fails + 1)
              rs k2 f2 h

theorem processBatch_getElem?_preserve (s : FilterSettings)
    (oracle : Nat → List String → Except String (List VRes))
    (st : RunSt) (batch : List PhoneRec) (j : Nat) (n : PhoneRec)
    (hj : st.numbers[j]? = some n)
    (hnum : ∀ it ∈ batch, (n.number == it.number) = false)
    (hres : ∀ k rs,
      oracle k (batch.map (fun m => jsOrStr m.normalizedNumber m.number))
        = Except.ok rs → ∀ r ∈ rs, predB n r = false) :
    (processBatch s oracle st batch).numbers[j]? = some n := by
  have h1 : (markChecking st.numbers batch)[j]? = some n :=
    markChecking_getElem?_of_not st.numbers batch j n hj hnum
  simp only [processBatch]
  cases hA : attemptLoop oracle
      (batch.map (fun n => jsOrStr n.normalizedNumber n.number))
      st.callIdx 0 s.maxRetries with
  | succeeded rs k2 f2 =>
      simp only [hA]
      obtain ⟨k0, hk0⟩ := attemptLoop_succeeded_src oracle _ _ _ _ _ _ _ hA
      exact reconcile_getElem?_of_not rs _ st.validCount j n h1
        (hres k0 rs hk0)
  | exhausted e k2 =>
      simp only [hA]
      exact markError_getElem?_of_not _ batch _ j n h1 hnum
  | skipped =>
      simp only [hA]
      exact h1

theorem validate_shape (lib : LibModel) (number cc : String) :
    ((validatePhoneNumber lib number cc).isValid = true
      ∧ (validatePhoneNumber lib number cc).normalized.isSome = true
      ∧ (validatePhoneNumber lib number cc).error = none)
    ∨ ((validatePhoneNumber lib number cc).isValid = false
      ∧ (validatePhoneNumber lib number cc).normalized = none
      ∧ (validatePhoneNumber lib number cc).error.isSome = true) := by
  cases hpo : (if startsWithPlus number then lib.parseIntl number
      else lib.parseWithRegion number cc) with
  | threw m =>
      right
      simp [validatePhoneNumber, hpo]
  | nullish =>
      right
      simp [validatePhoneNumber, hpo]
  | parsed p =>
      by_cases hv : p.isValidNum = true
      · left
        simp [validatePhoneNumber, hpo, hv]
      · right
        simp [validatePhoneNumber, hpo, eq_false_of_ne_true hv]

theorem seedRec_number (lib : LibModel) (cc x : String) :
    (seedRec lib cc x).number = x := rfl

theorem seedRec_invalid (lib : LibModel) (cc x : String)
    (h : (seedRec lib cc x).isValid = false) :
    (seedRec lib cc x).status = Status.error
    ∧ (seedRec lib cc x).normalizedNumber = none := by
  have hx : (seedRec lib cc x).isValid = (validatePhoneNumber lib x cc).isValid := rfl
  rcases validate_shape lib x cc with ⟨h1, _, _⟩ | ⟨h1, h2, _⟩
  · rw [hx, h1] at h
    cases h
  · constructor
    · show (if (validatePhoneNumber lib x cc).isValid then Status.pending
        else Status.error) = Status.error
      rw [h1]
      rfl
    · show (validatePhoneNumber lib x cc).normalized = none
      exact h2

theorem seedRec_valid_normalized (lib : LibModel) (cc x : String)
    (h : (seedRec lib cc x).isValid = true) :
    ∃ c, (seedRec lib cc x).normalizedNumber = some c := by
  have hx : (seedRec lib cc x).isValid = (validatePhoneNumber lib x cc).isValid := rfl
  rcases validate_shape lib x cc with ⟨_, h2, _⟩ | ⟨h1, _, _⟩
  · exact Option.isSome_iff_exists.mp h2
  · rw [hx, h1] at h
    cases h

theorem processPhoneNumbers_mem_eq (lib : LibModel) (inputs : List String)
    (cc : String) (m : PhoneRec) (h : m ∈ processPhoneNumbers lib inputs cc) :
    m = seedRec lib cc m.number := by
  obtain ⟨x, _, rfl⟩ := List.mem_map.mp h
  rfl

/-- C3 (confirmed): no run leaves a record in `Checking`.  Seeding
produces only `Pending` and `Error` records; a run never mutates the
record store at all — the only `Checking` transition in the program sits
inside the batch loop, which is unreachable (the run fails at the caught
line-290 `ReferenceError` before it, and `handleCancel` touches no
statuses either) — so at every run termination, normal or cancelled, a
store that had no `Checking` record still has none.  The claim's
conditional sub-clause (reconcile or revert records moved to `Checking`)
is vacuous: no record is ever moved to `Checking`. -/
theorem run_leaves_no_checking :
    (∀ (lib : LibModel) (inputs : List String) (cc : String),
      ∀ n ∈ processPhoneNumbers lib inputs cc, n.status ≠ Status.checking)
    ∧ (∀ (l : List PhoneRec), (startProcessingRun l).2 = l)
    ∧ (∀ (l : List PhoneRec), (∀ n ∈ l, n.status ≠ Status.checking) →
        ∀ n ∈ (startProcessingRun l).2, n.status ≠ Status.checking) := by
  have hsnd : ∀ (l : List PhoneRec), (startProcessingRun l).2 = l := by
    intro l
    by_cases h : (eligibleOf l).length = 0 <;> simp [startProcessingRun, h]
  refine ⟨?_, hsnd, ?_⟩
  · intro lib inputs cc n hn hchk
    have he := processPhoneNumbers_mem_eq lib inputs cc n hn
    rw [he] at hchk
    have hs : (seedRec lib cc n.number).status
        = (if (validatePhoneNumber lib n.number cc).isValid then Status.pending
           else Status.error) := rfl
    rw [hs] at hchk
    by_cases hv : (validatePhoneNumber lib n.number cc).isValid = true
    · simp [hv] at hchk
    · simp [eq_false_of_ne_true hv] at hchk
  · intro l h n hn
    rw [hsnd l] at hn
    exact h n hn

/-- C3, witness: a freshly seeded valid record is `Pending`, and after a
run over a store containing it the record is still not `Checking`. -/
theorem run_leaves_no_checking_witness :
    recV1.status ≠ Status.checking :=
  run_leaves_no_checking.2.2 [recV1] (by decide) recV1 (by decide)

/-- A valid record already `Done` and reachable, as a previous run
leaves it. -/
def recDone : PhoneRec :=
  { recV1 with status := Status.done, hasWhatsApp := JSVal.strv "242060000001" }

/-- C4, counterexample.  A valid `Done` record is in the run-start
snapshot: line 275 is executing code — it runs before the defective
`try` block — and filters `isValid && status !== 'error'`, not
`status === 'pending'`, so the claimed snapshot (valid ∧ `Pending`) of
the same store is empty while the code's snapshot is not.  Observably, a
store holding only valid `Done` records passes the no-valid-numbers
guard and begins a run — ending in the caught `ReferenceError` — instead
of the empty-snapshot rejection that excluding `Done` records would
produce. -/
theorem snapshot_includes_done_counterexample :
    eligibleOf [recDone] = [recDone]
    ∧ recDone.isValid = true
    ∧ recDone.status = Status.done
    ∧ [recDone].filter (fun n => n.isValid && (n.status == Status.pending)) = []
    ∧ startProcessingRun [recDone]
        = (RuntimeOutcome.caughtReferenceError, [recDone])
    ∧ RuntimeOutcome.caughtReferenceError ≠ RuntimeOutcome.noValidNumbers := by
  refine ⟨by decide, by decide, by decide, by decide, by decide, by decide⟩

/-- C4 (amended): the run-start snapshot is exactly the records with
`valid == true` and `status ≠ Error` — `Pending`, `Checking` and `Done`
records are all eligible.  A non-empty store of valid `Done` records is
therefore not excluded from re-processing: it passes the
no-valid-numbers guard and begins a run, which then fails at the caught
`ReferenceError` of the line-392 defect with the store unchanged, so no
re-verification is actually performed. -/
theorem snapshot_filter_amended :
    (∀ (l : List PhoneRec) (n : PhoneRec),
      n ∈ eligibleOf l ↔ n ∈ l ∧ n.isValid = true ∧ n.status ≠ Status.error)
    ∧ (∀ (l : List PhoneRec),
        (∀ n ∈ l, n.isValid = true ∧ n.status = Status.done) →
        eligibleOf l = l)
    ∧ (∀ (l : List PhoneRec), l ≠ [] →
        (∀ n ∈ l, n.isValid = true ∧ n.status = Status.done) →
        startProcessingRun l = (RuntimeOutcome.caughtReferenceError, l)) := by
  have hfull : ∀ (l : List PhoneRec),
      (∀ n ∈ l, n.isValid = true ∧ n.status = Status.done) →
      eligibleOf l = l := by
    intro l h
    refine List.filter_eq_self.mpr (fun n hn => ?_)
    obtain ⟨h1, h2⟩ := h n hn
    simp [h1, h2]
  refine ⟨?_, hfull, ?_⟩
  · intro l n
    simp [eligibleOf, List.mem_filter]
  · intro l hne h
    have hlen : ¬((eligibleOf l).length = 0) := by
      rw [hfull l h]
      intro h0
      exact hne (List.length_eq_zero.mp h0)
    simp [startProcessingRun, hlen]

/-- C4 amended, witness: the valid `Done` record is a member of the
snapshot, a store holding only it is fully eligible, and running that
store begins a run ending at the caught error with the store
unchanged. -/
theorem snapshot_filter_amended_witness :
    recDone ∈ eligibleOf [recDone]
    ∧ eligibleOf [recDone] = [recDone]
    ∧ startProcessingRun [recDone]
        = (RuntimeOutcome.caughtReferenceError, [recDone]) :=
  ⟨(snapshot_filter_amended.1 [recDone] recDone).mpr
      ⟨by decide, by decide, by decide⟩,
   snapshot_filter_amended.2.1 [recDone] (by decide),
   snapshot_filter_amended.2.2 [recDone] (by decide) (by decide)⟩

/-- C5, code defect, evaluated.  With a non-empty eligible store the
`startProcessing` call crashes before the loop (the `const validNumbers`
of line 392 shadows the line-275 binding across the whole `try` block,
so line 290 reads a dead-zone variable and throws a caught
`ReferenceError`); and even taken on its own, the persistence step
upserts nothing: it reads the stale pre-run `numbers` closure (where
`hasWhatsApp` is still `null`), and its `n.hasWhatsApp === true` filter
rejects even the values the engine itself writes for reachable records
(`wa_id` strings — truthy, but not `=== true`). -/
theorem persist_defect_eval :
    startProcessingRuntime [recV1] = RuntimeOutcome.caughtReferenceError
    ∧ persistedUpserts [recV1] = []
    ∧ persistedUpserts
        [{ recV1 with hasWhatsApp := JSVal.strv "242060000001", status := Status.done }] = []
    ∧ JSVal.truthy (JSVal.strv "242060000001") = true := by
  refine ⟨by decide, by decide, by decide, by decide⟩

/-- Library fixture for C6: a valid number of a non-geographical
numbering plan — `libphonenumber-js` documents `country` as `undefined`
for these, while `isValid()` holds. -/
def libNonGeo : LibModel :=
  { parseIntl := fun s =>
      if s = "+87012345678" then
        ParseOutcome.parsed
          { e164 := "+87012345678", country := none, isValidNum := true }
      else ParseOutcome.threw none,
    parseWithRegion := fun _ _ => ParseOutcome.threw none }

/-- C6, counterexample.  For a `+`-prefixed input whose parse leaves the
library's `country` undefined, line 110's fallback
`phoneNumber.country || countryCode` resolves the region from
`defaultRegion`: the same raw string validated under two different
default regions yields two different results, so normalization of
`+`-numbers is not independent of `defaultRegion`. -/
theorem intl_region_dependence_counterexample :
    startsWithPlus "+87012345678" = true
    ∧ validatePhoneNumber libNonGeo "+87012345678" "CG"
        ≠ validatePhoneNumber libNonGeo "+87012345678" "FR"
    ∧ (validatePhoneNumber libNonGeo "+87012345678" "CG").country = some "CG"
    ∧ (validatePhoneNumber libNonGeo "+87012345678" "FR").country = some "FR" := by
  refine ⟨by decide, by decide, by decide, by decide⟩

/-- C6 (amended): for every raw input starting with `+`, validity, the
canonical E.164 form and the error message are independent of
`defaultRegion` (the parse itself never consults it); the resolved
region is independent as well whenever the library determines a
(non-empty) country from the number, but when the library leaves the
country undetermined the code falls back to `defaultRegion`. -/
theorem intl_region_independence_amended (lib : LibModel) (number : String)
    (cc1 cc2 : String) (hplus : startsWithPlus number = true) :
    (validatePhoneNumber lib number cc1).isValid
      = (validatePhoneNumber lib number cc2).isValid
    ∧ (validatePhoneNumber lib number cc1).normalized
      = (validatePhoneNumber lib number cc2).normalized
    ∧ (validatePhoneNumber lib number cc1).error
      = (validatePhoneNumber lib number cc2).error
    ∧ (∀ p, lib.parseIntl number = ParseOutcome.parsed p →
        (∃ c, p.country = some c ∧ c ≠ "") →
        (validatePhoneNumber lib number cc1).country
          = (validatePhoneNumber lib number cc2).country) := by
  simp only [validatePhoneNumber, hplus, if_true]
  cases hp : lib.parseIntl number with
  | threw m => simp
  | nullish => simp
  | parsed p =>
      by_cases hv : p.isValidNum = true
      · refine ⟨by simp [hv], by simp [hv], by simp [hv], ?_⟩
        intro q hq hc
        obtain ⟨c, hc1, hc2⟩ := hc
        cases hq
        simp [hv, jsOrStr, hc1, hc2]
      · have hv2 : p.isValidNum = false := eq_false_of_ne_true hv
        simp [hv2]

/-- Library fixture whose parse resolves a concrete country. -/
def libGeo : LibModel :=
  { parseIntl := fun _ =>
      ParseOutcome.parsed
        { e164 := "+242060000001", country := some "CG", isValidNum := true },
    parseWithRegion := fun _ _ => ParseOutcome.threw none }

/-- C6 amended, witness: a `+`-number parsed with a determined country
validates identically under default regions `CG` and `FR`, the country
included. -/
theorem intl_region_independence_amended_witness :
    (validatePhoneNumber libGeo "+242060000001" "CG").isValid
      = (validatePhoneNumber libGeo "+242060000001" "FR").isValid
    ∧ (validatePhoneNumber libGeo "+242060000001" "CG").normalized
      = (validatePhoneNumber libGeo "+242060000001" "FR").normalized
    ∧ (validatePhoneNumber libGeo "+242060000001" "CG").error
      = (validatePhoneNumber libGeo "+242060000001" "FR").error
    ∧ (∀ p, libGeo.parseIntl "+242060000001" = ParseOutcome.parsed p →
        (∃ c, p.country = some c ∧ c ≠ "") →
        (validatePhoneNumber libGeo "+242060000001" "CG").country
          = (validatePhoneNumber libGeo "+242060000001" "FR").country) :=
  intl_region_independence_amended libGeo "+242060000001" "CG" "FR" (by decide)

/-- C8, counterexample.  `startProcessing` consults only the emptiness
of the eligible snapshot: invoked while a run is already active
(`isProcessing = true`) it still proceeds — there is no `InvalidState`
failure path at all. -/
theorem start_guard_counterexample :
    startGuard true [recV1] = StartDecision.proceed
    ∧ startGuard false [recV1] = StartDecision.proceed := by
  refine ⟨by decide, by decide⟩

/-- C8 (amended): the entry guard of `startProcessing` is independent
of whether a run is active — the function performs no active-run check
(single-run discipline is enforced only by the UI swapping the Start
button for Cancel while `isProcessing` holds) — and it proceeds exactly
when the eligible snapshot is non-empty, rejecting only for lack of
valid numbers. -/
theorem start_guard_amended :
    (∀ (b1 b2 : Bool) (l : List PhoneRec), startGuard b1 l = startGuard b2 l)
    ∧ (∀ (b : Bool) (l : List PhoneRec),
        startGuard b l = StartDecision.proceed ↔ (eligibleOf l).length ≠ 0) := by
  constructor
  · intro b1 b2 l
    rfl
  · intro b l
    by_cases h : (eligibleOf l).length = 0
    · simp [startGuard, h]
    · simp [startGuard, h]

/-- C8 amended, witness: with one valid record the guard's decision is
the same whether or not a run is active, and it proceeds. -/
theorem start_guard_amended_witness :
    startGuard true [recV1] = startGuard false [recV1]
    ∧ (startGuard true [recV1] = StartDecision.proceed
        ↔ (eligibleOf [recV1]).length ≠ 0) :=
  ⟨start_guard_amended.1 true false [recV1],
   start_guard_amended.2 true [recV1]⟩

theorem runBatches_getElem?_preserve (s : FilterSettings)
    (oracle : Nat → List String → Except String (List VRes))
    (ab : Nat → Bool) :
    ∀ (bs : List (List PhoneRec)) (st : RunSt) (i j : Nat) (n : PhoneRec),
      st.numbers[j]? = some n →
      (∀ b ∈ bs, ∀ it ∈ b, (n.number == it.number) = false) →
      (∀ b ∈ bs, ∀ k rs,
        oracle k (b.map (fun m => jsOrStr m.normalizedNumber m.number))
          = Except.ok rs → ∀ r ∈ rs, predB n r = false) →
      (runBatches s oracle ab st i bs).numbers[j]? = some n
  | [], _, _, _, _, hj, _, _ => hj
  | b :: bs, st, i, j, n, hj, hnum, hres => by
      simp only [runBatches]
      by_cases hab : ab i = true
      · simp only [hab, if_true]
        exact hj
      · simp only [eq_false_of_ne_true hab, Bool.false_eq_true, if_false]
        exact runBatches_getElem?_preserve s oracle ab bs
          (processBatch s oracle st b) (i + 1) j n
          (processBatch_getElem?_preserve s oracle st b j n hj
            (fun it hit => hnum b (List.mem_cons_self b bs) it hit)
            (fun k rs h => hres b (List.mem_cons_self b bs) k rs h))
          (fun b2 hb2 => hnum b2 (List.mem_cons.mpr (Or.inr hb2)))
          (fun b2 hb2 => hres b2 (List.mem_cons.mpr (Or.inr hb2)))

/-- C7 (confirmed): records seeded with `valid == false` are seeded
directly into `Error`, never appear in any batch (every batch member is
valid), and are still exactly as seeded — in particular `status ==
Error` — when the batch loop terminates.  Hypotheses: the verification
client answers only for requested numbers (its §6 interface contract),
and the normalizer is coherent in that a valid record's canonical form
never collides with an invalid record's raw string (libphonenumber's
E.164 output re-validates, so it cannot equal a string that failed
validation under the same settings). -/
theorem invalid_records_protected (lib : LibModel) (inputs : List String)
    (cc : String) (s : FilterSettings)
    (oracle : Nat → List String → Except String (List VRes))
    (ab : Nat → Bool)
    (horacle : ∀ k req rs, oracle k req = Except.ok rs →
      ∀ r ∈ rs, r.input ∈ req)
    (hsep : ∀ n ∈ processPhoneNumbers lib inputs cc, n.isValid = false →
      ∀ m ∈ processPhoneNumbers lib inputs cc, m.isValid = true →
        m.normalizedNumber ≠ some n.number) :
    (∀ n ∈ processPhoneNumbers lib inputs cc, n.isValid = false →
      n.status = Status.error)
    ∧ (∀ b ∈ chunks s.batchSize
          (eligibleOf (processPhoneNumbers lib inputs cc)),
        ∀ r ∈ b, r.isValid = true)
    ∧ (∀ (j : Nat) (n : PhoneRec),
        (processPhoneNumbers lib inputs cc)[j]? = some n →
        n.isValid = false →
        (runBatches s oracle ab (initSt (processPhoneNumbers lib inputs cc)) 0
            (chunks s.batchSize
              (eligibleOf (processPhoneNumbers lib inputs cc)))).numbers[j]?
          = some n) := by
  have hmem_elig : ∀ b ∈ chunks s.batchSize
      (eligibleOf (processPhoneNumbers lib inputs cc)), ∀ it ∈ b,
      it ∈ processPhoneNumbers lib inputs cc ∧ it.isValid = true := by
    intro b hb it hit
    have h1 : it ∈ (chunks s.batchSize
        (eligibleOf (processPhoneNumbers lib inputs cc))).flatten :=
      List.mem_flatten_of_mem hb hit
    rw [chunks_flatten] at h1
    have h2 := List.mem_filter.mp h1
    exact ⟨h2.1, (Bool.and_eq_true_iff.mp h2.2).1⟩
  refine ⟨?_, ?_, ?_⟩
  · intro n hn hinv
    have he := processPhoneNumbers_mem_eq lib inputs cc n hn
    rw [he] at hinv ⊢
    exact (seedRec_invalid lib cc n.number hinv).1
  · intro b hb r hr
    exact (hmem_elig b hb r hr).2
  · intro j n hj hinv
    have hnL : n ∈ processPhoneNumbers lib inputs cc := List.getElem?_mem hj
    have hne := processPhoneNumbers_mem_eq lib inputs cc n hnL
    have hnorm : n.normalizedNumber = none := by
      rw [hne] at hinv
      rw [hne]
      exact (seedRec_invalid lib cc n.number hinv).2
    have hdiff : ∀ m ∈ processPhoneNumbers lib inputs cc,
        m.isValid = true → m.number ≠ n.number := by
      intro m hm hv heq
      have hme := processPhoneNumbers_mem_eq lib inputs cc m hm
      have hmn : m = n := by rw [hme, heq, ← hne]
      rw [hmn, hinv] at hv
      cases hv
    apply runBatches_getElem?_preserve s oracle ab _ _ 0 j n hj
    · intro b hb it hit
      have h := hmem_elig b hb it hit
      exact beq_eq_false_iff_ne.mpr
        (fun he2 => hdiff it h.1 h.2 he2.symm)
    · intro b hb k rs hok r hr
      have hin := horacle k _ rs hok r hr
      obtain ⟨m, hm, hmr⟩ := List.mem_map.mp hin
      have h := hmem_elig b hb m hm
      have hmeq := processPhoneNumbers_mem_eq lib inputs cc m h.1
      have hv2 : (seedRec lib cc m.number).isValid = true := by
        rw [← hmeq]
        exact h.2
      obtain ⟨c, hc⟩ := seedRec_valid_normalized lib cc m.number hv2
      have hmn : m.normalizedNumber = some c := by
        rw [hmeq]
        exact hc
      have hinput : r.input ≠ n.number := by
        rw [← hmr, hmn]
        by_cases hc0 : c = ""
        · simp only [jsOrStr, hc0, if_pos]
          exact hdiff m h.1 h.2
        · simp only [jsOrStr, if_neg hc0]
          intro hcn
          exact hsep n hnL hinv m h.1 h.2 (by rw [hmn, hcn])
      have hfalse2 : (n.number == r.input) = false :=
        beq_eq_false_iff_ne.mpr (Ne.symm hinput)
      show ((n.normalizedNumber == some r.input) || (n.number == r.input))
        = false
      rw [hnorm, hfalse2]
      rfl

/-- C7 fixture: library validating one E.164 string and rejecting the
rest. -/
def libC7 : LibModel :=
  { parseIntl := fun s =>
      if s = "+242060000001" then
        ParseOutcome.parsed
          { e164 := "+242060000001", country := some "CG", isValidNum := true }
      else ParseOutcome.threw none,
    parseWithRegion := fun _ _ => ParseOutcome.threw none }

/-- C7, witness: seeding `["+242060000001", "bad"]` makes record 1
invalid (`Error` at seed time); after a full run over the eligible
snapshot it is still exactly the seeded record. -/
theorem invalid_records_protected_witness :
    (runBatches baseSettings (fun _ _ => Except.error "down")
        (fun _ => false)
        (initSt (processPhoneNumbers libC7 ["+242060000001", "bad"] "CG")) 0
        (chunks baseSettings.batchSize
          (eligibleOf
            (processPhoneNumbers libC7 ["+242060000001", "bad"] "CG")))).numbers[1]?
      = some (seedRec libC7 "CG" "bad") :=
  (invalid_records_protected libC7 ["+242060000001", "bad"] "CG" baseSettings
    (fun _ _ => Except.error "down") (fun _ => false)
    (fun _ _ _ h => by simp at h)
    (by decide)).2.2 1 (seedRec libC7 "CG" "bad") (by decide) (by decide)

/-- C9 (confirmed): `exportResults` is a pure read — it returns the
record store unchanged, its output agrees with the spec's
`exportReachable()` reading (the ordered canonical numbers of the
records whose stored reachability flag is truthy, newline-joined), and
repeating the call on the returned store yields the identical string.
Hypothesis: every reachable record carries a (non-empty) canonical
number — true of every record the engine marks reachable, since batch
requests are built from canonical forms. -/
theorem exportResults_spec (l : List PhoneRec)
    (hcanon : ∀ n ∈ l, n.hasWhatsApp.truthy = true →
      n.normalizedNumber ≠ none ∧ n.normalizedNumber ≠ some "") :
    (exportResultsSt l).2 = l
    ∧ (exportResultsSt l).1 = exportReachableSpec l
    ∧ (exportResultsSt ((exportResultsSt l).2)).1 = (exportResultsSt l).1 := by
  have key : ∀ (l2 : List PhoneRec),
      (∀ n ∈ l2, n.hasWhatsApp.truthy = true →
        n.normalizedNumber ≠ none ∧ n.normalizedNumber ≠ some "") →
      (l2.filter (fun n => n.hasWhatsApp.truthy)).map
          (fun n => jsOrStr n.normalizedNumber n.number)
        = l2.filterMap (fun n =>
            if n.hasWhatsApp.truthy then n.normalizedNumber else none) := by
    intro l2
    induction l2 with
    | nil => intro _; rfl
    | cons a t ih =>
        intro h2
        have hat := fun n hn h => h2 n (List.mem_cons.mpr (Or.inr hn)) h
        by_cases ha : a.hasWhatsApp.truthy = true
        · obtain ⟨hn1, hn2⟩ := h2 a (List.mem_cons_self a t) ha
          cases hno : a.normalizedNumber with
          | none => exact absurd hno hn1
          | some c =>
              have hc : ¬(c = "") := fun hc0 => hn2 (by rw [hno, hc0])
              simp only [List.filter_cons, ha, if_true, List.map_cons,
                List.filterMap_cons, hno, jsOrStr, if_neg hc]
              exact congrArg (c :: ·) (ih hat)
        · have ha2 : a.hasWhatsApp.truthy = false := eq_false_of_ne_true ha
          simp only [List.filter_cons, ha2, Bool.false_eq_true, if_false,
            List.filterMap_cons, ha2]
          exact ih hat
  exact ⟨rfl, congrArg (String.intercalate "\n") (key l hcanon), rfl⟩

/-- C9, witness: a store with one reachable record (holding its
canonical form) and one unknown record: the read leaves the store
unchanged, matches the spec reading, and repeats identically. -/
theorem exportResults_spec_witness :
    (exportResultsSt [recDone, recV2]).2 = [recDone, recV2]
    ∧ (exportResultsSt [recDone, recV2]).1 = exportReachableSpec [recDone, recV2]
    ∧ (exportResultsSt ((exportResultsSt [recDone, recV2]).2)).1
        = (exportResultsSt [recDone, recV2]).1 :=
  exportResults_spec [recDone, recV2] (by decide)

/-- C10 fixture: a library that throws on every parse. -/
def libThrow : LibModel :=
  { parseIntl := fun _ => ParseOutcome.threw (some "boom"),
    parseWithRegion := fun _ _ => ParseOutcome.threw (some "boom") }

/-- C10 (confirmed): `validatePhoneNumber` is total at its boundary —
for every library behaviour it returns a well-formed result, either a
success carrying a canonical form and no error, or a failure with
`isValid = false`, no canonical form, and an error message; and every
exception thrown by the underlying parse is caught and converted into
the failure result carrying the exception's message (or `'Validation
failed'`). -/
theorem validate_total (lib : LibModel) (number cc : String) :
    (((validatePhoneNumber lib number cc).isValid = true
        ∧ (validatePhoneNumber lib number cc).normalized.isSome = true
        ∧ (validatePhoneNumber lib number cc).error = none)
      ∨ ((validatePhoneNumber lib number cc).isValid = false
        ∧ (validatePhoneNumber lib number cc).normalized = none
        ∧ (validatePhoneNumber lib number cc).error.isSome = true))
    ∧ (∀ m, (if startsWithPlus number then lib.parseIntl number
          else lib.parseWithRegion number cc) = ParseOutcome.threw m →
        validatePhoneNumber lib number cc =
          { isValid := false, normalized := none, country := none,
            error := some (m.getD "Validation failed") }) := by
  refine ⟨validate_shape lib number cc, ?_⟩
  intro m h
  simp only [validatePhoneNumber, h]

/-- C10, witness: a parse that throws `'boom'` yields the failure
result with that message, for both the international and the
region-based branch's shape. -/
theorem validate_total_witness :
    validatePhoneNumber libThrow "060000001" "CG" =
      { isValid := false, normalized := none, country := none,
        error := some "boom" } :=
  (validate_total libThrow "060000001" "CG").2 (some "boom") (by decide)
